import Mathlib

/-
Verification of the reconciliation / formatting core of the
google-form-discord-bot repository (src/bot.js, current revision).

JavaScript strings are modelled as `List Char` (UTF-16 code-unit sequences;
every character occurring here is a single code unit).  Stateful code is
modelled by explicit state passing; every fallible external call (Discord
fetch/create/send, file read, JSON.parse, the Date parser and the
base-58 address validator of the external crypto library) is modelled by an
explicitly supplied outcome or function, so the control flow of bot.js is
transcribed faithfully while the external SDKs stay abstract.
-/

namespace GFBot

/-- JavaScript string, as a list of UTF-16 code units. -/
abbrev JStr := List Char

/-- Whitespace recognised by `String.prototype.trim` and by the `\s` class
(restricted to the code points that occur in this development). -/
def isWsChar (c : Char) : Bool :=
  c = ' ' || c = '\t' || c = '\n' || c = '\r' || c = '\x0b' || c = '\x0c'

/-- Leading-whitespace strip, the left half of `String.prototype.trim`. -/
def trimLeft (s : JStr) : JStr := s.dropWhile isWsChar

/-- Trailing-whitespace strip, the right half of `String.prototype.trim`. -/
def trimRight (s : JStr) : JStr := (s.reverse.dropWhile isWsChar).reverse

/-- `String.prototype.trim`. -/
def jsTrim (s : JStr) : JStr := trimRight (trimLeft s)

/-- `String.prototype.toLowerCase` (ASCII range, which is all the key hints use). -/
def jsToLower (s : JStr) : JStr := s.map Char.toLower

/-- Does the second string start with the first (`String.prototype.startsWith`)? -/
def beginsWith : JStr → JStr → Bool
  | [], _ => true
  | _ :: _, [] => false
  | a :: as, b :: bs => a = b && beginsWith as bs

/-- `String.prototype.includes`: does `s` contain `pat` as a contiguous part? -/
def containsSub : JStr → JStr → Bool
  | [], pat => pat.isEmpty
  | c :: rest, pat => beginsWith pat (c :: rest) || containsSub rest pat

/-- The `truncate(str, n)` helper of bot.js:
`str.length > n ? str.slice(0, n - 1) + ellipsis : str`. -/
def truncateStr (s : JStr) (n : Nat) : JStr :=
  if n < s.length then s.take (n - 1) ++ ['…'] else s

/-- Rendered value of one formatted-response field: a plain string, or the
file-name-to-URL mapping produced for file-upload answers. -/
inductive EntryVal where
  | str (s : JStr)
  | files (entries : List (JStr × JStr))
deriving DecidableEq

/-- JavaScript truthiness of an `EntryVal` (an object is always truthy, a
string is truthy iff nonempty). -/
def jsTruthy : EntryVal → Bool
  | .str s => !s.isEmpty
  | .files _ => true

/-- Template-literal coercion of an `EntryVal` to a string. -/
def valToStr : EntryVal → JStr
  | .str s => s
  | .files _ => ("[object Object]").data

/-- The normalized record built by `formatResponse`: the `responseId` and
`Submitted` metadata entries followed by the question fields, in insertion
order. -/
structure FormattedResponse where
  responseId : JStr
  submitted : JStr
  fields : List (JStr × EntryVal)
deriving DecidableEq

def responseIdKey : JStr := ("responseId").data
def submittedKey : JStr := ("Submitted").data

/-- `Object.entries(formattedResponse)`: metadata keys first (insertion
order of `formatResponse`), then the question fields in schema order. -/
def entriesOf (r : FormattedResponse) : List (JStr × EntryVal) :=
  (responseIdKey, .str r.responseId) :: (submittedKey, .str r.submitted) :: r.fields

/-- One answer of a raw Google-Forms response, as a tagged union over the
answer-kind fields the code probes (`fileUploadAnswers`, `textAnswers`,
`scaleAnswers`, `dateAnswers`, `timeAnswers`, `choiceAnswers`; `other` for
any object carrying none of these).  A `none` payload models an answer
object whose `.answers` array is missing, so that accessing it throws. -/
inductive Answer where
  | fileUpload (answers : Option (List (JStr × JStr)))
  | text (answers : Option (List JStr))
  | scale (answers : Option (List JStr))
  | date (answers : Option (List (Nat × Nat × Nat)))
  | time (answers : Option (List (Nat × Nat × Nat)))
  | choice (answers : Option (List JStr))
  | other
deriving DecidableEq

/-- A raw response as returned by `forms.responses.list`. -/
structure RawResponse where
  responseId : JStr
  lastSubmittedTime : JStr
  answers : List (JStr × Answer)
deriving DecidableEq

/-- One form item of `formDetails.items`; `questionId` is `none` when the
item has no `questionItem.question`. -/
structure FormItem where
  questionId : Option JStr
  title : JStr
deriving DecidableEq

/-! ## Ledger store (`loadResponseTrack` / tracked responses) -/

/-- The on-disk / in-memory response track: a JSON object keyed by form id,
each value the array of formatted responses already delivered. -/
abbrev Track := List (JStr × List FormattedResponse)

/-- `responseTrack[formId] || []`. -/
def trackGet (t : Track) (f : JStr) : List FormattedResponse :=
  (t.lookup f).getD []

/-- JavaScript property assignment `track[f] = v` (overwrite in place, or
append a new key). -/
def trackSet : Track → JStr → List FormattedResponse → Track
  | [], f, v => [(f, v)]
  | (k, w) :: rest, f, v =>
    if k = f then (k, v) :: rest else (k, w) :: trackSet rest f v

/-- `trackedResponses[formId] = trackedResponses[formId] || [];
trackedResponses[formId].push(resp)`. -/
def pushTrack (t : Track) (f : JStr) (r : FormattedResponse) : Track :=
  trackSet t f (trackGet t f ++ [r])

/-- Outcome of the `fs.readFile` call in `loadResponseTrack`. -/
inductive ReadOutcome where
  | ok (data : JStr)
  | enoent
  | failRead
deriving DecidableEq

/-- Result of `loadResponseTrack`: the ledger returned to the caller, the
ledger passed to `saveResponseTrack` (if any), and whether the corrupt-file
warning was logged. -/
structure LoadResult where
  track : Track
  persisted : Option Track
  warnedCorrupt : Bool
deriving DecidableEq

/-- `loadResponseTrack`, with the file read and `JSON.parse` supplied as
explicit outcomes (`parse s = none` models a `SyntaxError`).  The function is
total: every outcome of the collaborators yields a plain `LoadResult`, which
is the formal counterpart of "never throws to the caller". -/
def loadResponseTrack (read : ReadOutcome) (parse : JStr → Option Track) :
    LoadResult :=
  match read with
  | .ok data =>
    if (jsTrim data).isEmpty then ⟨[], none, false⟩
    else
      match parse data with
      | some t => ⟨t, none, false⟩
      | none => ⟨[], some [], true⟩
  | .enoent => ⟨[], some [], false⟩
  | .failRead => ⟨[], none, false⟩

/-! ## Reconciliation diff and ordering (`checkNewResponses`) -/

/-- The diff of `checkNewResponses`:
`responses.filter(r => !trackedResponses.some(tr => tr.responseId === r.responseId))`. -/
def newResponses (tracked : List FormattedResponse) (responses : List RawResponse) :
    List RawResponse :=
  responses.filter (fun r => !(tracked.any (fun tr => tr.responseId = r.responseId)))

/-- `newResponses.sort((a, b) => new Date(a.lastSubmittedTime) - new Date(b.lastSubmittedTime))`.
`dateVal` models the `Date` parser (ISO timestamp to epoch milliseconds);
the V8 sort is stable, so it is modelled by a stable insertion sort. -/
def sortNewResponses (dateVal : JStr → Nat) (rs : List RawResponse) :
    List RawResponse :=
  rs.insertionSort
    (fun a b => dateVal a.lastSubmittedTime ≤ dateVal b.lastSubmittedTime)

/-- The order in which `checkNewResponses` attempts deliveries on one tick:
the diffed responses, oldest submission first. -/
def deliveryOrder (dateVal : JStr → Nat) (tracked : List FormattedResponse)
    (responses : List RawResponse) : List RawResponse :=
  sortNewResponses dateVal (newResponses tracked responses)

/-! ## Response normalizer (`formatResponse`, `sanitizeFileName`) -/

/-- `sanitizeFileName`: every character outside `[A-Za-z0-9-_.]` becomes `_`. -/
def sanitizeFileName (s : JStr) : JStr :=
  s.map (fun c =>
    if c.isAlpha || c.isDigit || c = '-' || c = '_' || c = '.' then c else '_')

def commaSep : JStr := (", ").data

/-- `array.join(", ")`. -/
def joinComma (l : List JStr) : JStr := List.intercalate commaSep l

/-- Decimal rendering of the numeric sub-answer components. -/
def natToStr (n : Nat) : JStr := (Nat.repr n).data

/-- A `dateAnswers` sub-answer rendered as `year-month-day`. -/
def renderDate (d : Nat × Nat × Nat) : JStr :=
  natToStr d.1 ++ ['-'] ++ natToStr d.2.1 ++ ['-'] ++ natToStr d.2.2

/-- A `timeAnswers` sub-answer rendered as `hours:minutes:seconds`. -/
def renderTime (d : Nat × Nat × Nat) : JStr :=
  natToStr d.1 ++ [':'] ++ natToStr d.2.1 ++ [':'] ++ natToStr d.2.2

/-- The Drive retrieval URL constructed for a file-upload answer. -/
def driveUrlOf (fileId : JStr) : JStr :=
  ("https://drive.google.com/open?id=").data ++ fileId

/-- The per-field marker substituted by the per-field catch of `formatResponse`. -/
def errMarker : JStr := ("Error processing answer").data

/-- The body of the per-answer `try` of `formatResponse`.  `none`: no branch
of the `if`/`else if` chain matches (the field is simply not assigned);
`some (.error _)`: the branch threw (missing `.answers` array);
`some (.ok v)`: the value assigned to `formattedResponse[questionText]`. -/
def renderAnswer : Answer → Option (Except Unit EntryVal)
  | .fileUpload (some fs) =>
    some (.ok (.files (fs.map (fun p => (sanitizeFileName p.1, driveUrlOf p.2)))))
  | .fileUpload none => some (.error ())
  | .text (some vs) => some (.ok (.str (joinComma vs)))
  | .text none => some (.error ())
  | .scale (some vs) => some (.ok (.str (joinComma vs)))
  | .scale none => some (.error ())
  | .date (some vs) => some (.ok (.str (joinComma (vs.map renderDate))))
  | .date none => some (.error ())
  | .time (some vs) => some (.ok (.str (joinComma (vs.map renderTime))))
  | .time none => some (.error ())
  | .choice (some vs) => some (.ok (.str (joinComma vs)))
  | .choice none => some (.error ())
  | .other => none

/-- Is this a recognised answer kind whose `.answers` access throws? -/
def malformedAnswer : Answer → Bool
  | .fileUpload none => true
  | .text none => true
  | .scale none => true
  | .date none => true
  | .time none => true
  | .choice none => true
  | _ => false

/-- The field-building loop of `formatResponse`: walk `formDetails.items` in
form order, skip items without a question or without an answer, and assign
the rendered value (or the error marker when the per-field catch fires). -/
def buildFields (answers : List (JStr × Answer)) : List FormItem → List (JStr × EntryVal)
  | [] => []
  | item :: rest =>
    match item.questionId with
    | none => buildFields answers rest
    | some qid =>
      match answers.lookup qid with
      | none => buildFields answers rest
      | some ans =>
        match renderAnswer ans with
        | none => buildFields answers rest
        | some (.ok v) => (item.title, v) :: buildFields answers rest
        | some (.error _) => (item.title, .str errMarker) :: buildFields answers rest

/-- `response.lastSubmittedTime.split("T")[0]`. -/
def dateOnly (s : JStr) : JStr := s.takeWhile (fun c => c ≠ 'T')

/-- `formatResponse(response, formDetails)` (current revision): metadata
entries first, then the question fields in `formDetails.items` order. -/
def formatResponse (resp : RawResponse) (items : List FormItem) : FormattedResponse :=
  { responseId := resp.responseId
    submitted := dateOnly resp.lastSubmittedTime
    fields := buildFields resp.answers items }

/-- Specification-side description of one normalized field (used to compare
`formatResponse` with the spec's wording): the label is the schema item's
title, an item whose `questionId` has no entry in the answer map — or whose
answer kind is unrecognised — yields no field, and a malformed answer yields
the error marker. -/
def schemaField (answers : List (JStr × Answer)) (item : FormItem) :
    Option (JStr × EntryVal) :=
  match item.questionId with
  | none => none
  | some qid =>
    match answers.lookup qid with
    | none => none
    | some ans =>
      match renderAnswer ans with
      | none => none
      | some (.ok v) => some (item.title, v)
      | some (.error _) => some (item.title, .str errMarker)

/-! ## Message composer: title helpers (`getProjectName`, `getTotalCost`) -/

def unknownProject : JStr := ("Unknown Project").data
def costNotFound : JStr := ("Cost not found").data
def auditHint : JStr := ("audit").data
def auditorHint : JStr := ("auditor").data
def dots3 : JStr := ("...").data
def sepDash : JStr := (" - ").data

/-- The configured `PROJECT_NAME_KEYS` plus the models of the external
collaborators threaded through the composer: `urlOk` is `new URL(u)`
succeeding, `substAddr` is `formatStringWithSubstrateAddresses` (whose
checksum test lives in the external crypto library), `dateVal` is the
`Date` parser. -/
structure BotConfig where
  projectNameKeys : List JStr
  urlOk : JStr → Bool
  substAddr : JStr → JStr

/-- Does this key match one of the configured project-name hints
(case-insensitive containment, both sides lowered)? -/
def keyMatchesProject (keys : List JStr) (k : JStr) : Bool :=
  keys.any (fun sub => containsSub (jsToLower k) (jsToLower sub))

/-- `getProjectName(response)`: the value of the first key matching a
project-name hint, else the literal `Unknown Project`. -/
def getProjectName (keys : List JStr) (entries : List (JStr × EntryVal)) : EntryVal :=
  match entries.find? (fun e => keyMatchesProject keys e.1) with
  | some e => e.2
  | none => .str unknownProject

def costKeys : List JStr :=
  [("total cost").data, ("budget").data, ("funding amount").data,
   ("requested amount").data]

/-- Does any field label hint at an audit context? -/
def isAuditForm (entries : List (JStr × EntryVal)) : Bool :=
  entries.any (fun e =>
    containsSub (jsToLower e.1) auditHint || containsSub (jsToLower e.1) auditorHint)

/-- Does this key match one of the cost hints (case-insensitive)? -/
def keyMatchesCost (k : JStr) : Bool :=
  costKeys.any (fun ck => containsSub (jsToLower k) ck)

/-- The first entry whose key matches a cost hint. -/
def findCostEntry (entries : List (JStr × EntryVal)) : Option (JStr × EntryVal) :=
  entries.find? (fun e => keyMatchesCost e.1)

/-- Whitespace, comma or period — the `[\s,.]` class of `truncateCost`. -/
def isSepChar (c : Char) : Bool := isWsChar c || c = ',' || c = '.'

/-- The `while (truncateIndex > 0 && !/[\s,.]/.test(trimmedValue[truncateIndex - 1]))`
loop of `truncateCost`, started at 20: the largest `i ≤ n` whose preceding
character is a separator, else 0. -/
def breakIndexLoop (t : JStr) : Nat → Nat
  | 0 => 0
  | j + 1 => if isSepChar (t.getD j 'x') then j + 1 else breakIndexLoop t j

/-- `truncateCost(value)`. -/
def truncateCost (value : JStr) : JStr :=
  let t := jsTrim value
  if 20 < t.length then
    let i0 := breakIndexLoop t 20
    let i := if i0 = 0 then 20 else i0
    t.take i ++ dots3
  else t

/-- `getTotalCost(response)` (current revision, with the audit skip).  The
`.error` case models `value.trim()` throwing because the first cost-matching
value is a file mapping rather than a string. -/
def getTotalCost (entries : List (JStr × EntryVal)) : Except Unit JStr :=
  if isAuditForm entries then .ok []
  else
    match findCostEntry entries with
    | some (_, .str s) => .ok (truncateCost s)
    | some (_, .files _) => .error ()
    | none => .ok costNotFound

/-- The thread title built by `sendToDiscord`:
`truncate(Submitted + " - " + projectName + (totalCost ? " - " + totalCost : ""), 100)`. -/
def threadNameFor (keys : List JStr) (r : FormattedResponse) (cost : JStr) : JStr :=
  truncateStr
    (r.submitted ++ sepDash ++ valToStr (getProjectName keys (entriesOf r)) ++
      (if cost.isEmpty then [] else sepDash ++ cost)) 100

/-! ## Message composer: `cleanFileName` -/

/-- `.replace(/_+/g, " ")`: each maximal run of underscores becomes one
space.  The flag records whether the previous character was an underscore. -/
def collapseUnd : Bool → JStr → JStr
  | _, [] => []
  | prev, c :: rest =>
    if c = '_' then
      if prev then collapseUnd true rest else ' ' :: collapseUnd true rest
    else c :: collapseUnd false rest

/-- `.replace(/_/g, " ")` (the second, single-underscore pass). -/
def mapUnd (s : JStr) : JStr := s.map (fun c => if c = '_' then ' ' else c)

/-- `.replace(/\s+-\s+/g, " - ")`: a dash framed by whitespace runs is
normalised to a single space on each side. -/
def fixDash (s : JStr) : JStr :=
  match s with
  | [] => []
  | c :: rest =>
    if isWsChar c then
      match h : rest.dropWhile isWsChar with
      | '-' :: d :: rest2 =>
        if isWsChar d then ' ' :: '-' :: ' ' :: fixDash (rest2.dropWhile isWsChar)
        else c :: fixDash rest
      | _ => c :: fixDash rest
    else c :: fixDash rest
termination_by s.length
decreasing_by
  all_goals simp
  all_goals try omega
  all_goals
    (have h1 : (rest.dropWhile isWsChar).length ≤ rest.length :=
      (List.dropWhile_sublist _).length_le;
     have h2 : (rest2.dropWhile isWsChar).length ≤ rest2.length :=
      (List.dropWhile_sublist _).length_le;
     rw [h] at h1; simp at h1; omega)

/-- `.replace(/\s+/g, " ")`: each maximal run of whitespace becomes one space. -/
def collapseWs : Bool → JStr → JStr
  | _, [] => []
  | prev, c :: rest =>
    if isWsChar c then
      if prev then collapseWs true rest else ' ' :: collapseWs true rest
    else c :: collapseWs false rest

/-- `cleanFileName(fileName)`. -/
def cleanFileName (s : JStr) : JStr :=
  jsTrim (collapseWs false (fixDash (mapUnd (collapseUnd false s))))

/-! ## Message composer: `formatResponseMessage` -/

/-- A link-style button (label, URL). -/
structure LinkButton where
  label : JStr
  url : JStr
deriving DecidableEq

/-- The composed payload: the body text and the action rows. -/
structure Payload where
  content : JStr
  components : List (List LinkButton)
deriving DecidableEq

def websiteHint : JStr := ("website").data
def winningHint : JStr := ("winning").data
def websiteLabel : JStr := ("🌐 Website").data
def spreadsheetLabel : JStr := ("📑 Spreadsheet").data
def trophyMark : JStr := ("🏆 ").data
def pageMark : JStr := ("📄 ").data
def httpsScheme : JStr := ("https://").data
def httpScheme : JStr := ("http://").data
def sectionMark : JStr := ("## ").data
def nl1 : JStr := ['\n']
def nl2 : JStr := ['\n', '\n']

/-- Does this key contain "name" (after lowering)? -/
def keyIsName (k : JStr) : Bool := containsSub (jsToLower k) ("name").data

/-- The stable V8 sort under the two-class comparator
`aIsName && !bIsName ? -1 : !aIsName && bIsName ? 1 : 0`: all "name"
entries first, each class in original order. -/
def sortEntries (entries : List (JStr × EntryVal)) : List (JStr × EntryVal) :=
  entries.filter (fun e => keyIsName e.1) ++ entries.filter (fun e => !keyIsName e.1)

/-- `url.replace(/^http:\/\//i, "")`. -/
def stripHttp (s : JStr) : JStr :=
  if jsToLower (s.take 7) = httpScheme then s.drop 7 else s

/-- The website-URL normalisation of `formatResponseMessage`. -/
def normalizeUrl (s : JStr) : JStr :=
  let u := jsTrim s
  if beginsWith httpsScheme u then u else httpsScheme ++ stripHttp u

/-- Accumulators of the `sortedEntries.forEach` loop. -/
structure ComposeState where
  message : JStr
  nav : List LinkButton
  winning : List LinkButton
  otherBtns : List LinkButton
deriving DecidableEq

def emptyCompose : ComposeState := ⟨[], [], [], []⟩

/-- One body section `## key\n<rendered value>\n\n`. -/
def sectionOf (cfg : BotConfig) (k v : JStr) : JStr :=
  sectionMark ++ k ++ nl1 ++ cfg.substAddr v ++ nl2

/-- One iteration of the entry loop of `formatResponseMessage` (current
revision, which has no per-entry catch): a file-mapping value under a
"website" key makes `value.trim()` throw, modelled as `.error`. -/
def processEntry (cfg : BotConfig) (st : ComposeState) (e : JStr × EntryVal) :
    Except Unit ComposeState :=
  let lowerKey := jsToLower e.1
  if cfg.projectNameKeys.any (fun k => containsSub lowerKey (jsToLower k)) then .ok st
  else if containsSub lowerKey websiteHint then
    match e.2 with
    | .files _ => .error ()
    | .str s =>
      let url := normalizeUrl s
      if cfg.urlOk url then .ok { st with nav := st.nav ++ [⟨websiteLabel, url⟩] }
      else .ok st
  else
    match e.2 with
    | .files fs =>
      if containsSub lowerKey winningHint then
        .ok { st with winning := (st.winning ++
          fs.map (fun p => ⟨truncateStr (trophyMark ++ cleanFileName p.1) 80, p.2⟩)) }
      else
        .ok { st with otherBtns := (st.otherBtns ++
          fs.map (fun p => ⟨truncateStr (pageMark ++ cleanFileName p.1) 80, p.2⟩)) }
    | .str s => .ok { st with message := st.message ++ sectionOf cfg e.1 s }

/-- The whole entry loop, left to right. -/
def composeEntries (cfg : BotConfig) (st : ComposeState) :
    List (JStr × EntryVal) → Except Unit ComposeState
  | [] => .ok st
  | e :: rest =>
    match processEntry cfg st e with
    | .error u => .error u
    | .ok st' => composeEntries cfg st' rest

/-- `allOfferButtons.slice(i, i + 5)` grouping. -/
def chunk5 : List LinkButton → List (List LinkButton)
  | [] => []
  | b :: rest => (b :: rest.take 4) :: chunk5 (rest.drop 4)
termination_by l => l.length
decreasing_by simp [List.length_drop]; omega

/-- Truthiness of an optional string argument. -/
def optTruthy : Option JStr → Bool
  | none => false
  | some s => !s.isEmpty

/-- `formatResponseMessage(response, responseUrl)` (the second, effective
definition of the current revision): filter falsy and metadata entries, sort
"name" fields first, process each entry, then assemble the action rows. -/
def formatResponseMessage (cfg : BotConfig) (response : List (JStr × EntryVal))
    (responseUrl : Option JStr) : Except Unit Payload :=
  let entries := response.filter
    (fun e => jsTruthy e.2 && e.1 ≠ submittedKey && e.1 ≠ responseIdKey)
  match composeEntries cfg emptyCompose (sortEntries entries) with
  | .error u => .error u
  | .ok st =>
    let nav := st.nav ++
      (match responseUrl with
       | some u => if u.isEmpty then [] else [⟨spreadsheetLabel, u⟩]
       | none => [])
    let offers := st.winning ++ st.otherBtns
    let rows := (if nav.isEmpty then [] else [nav]) ++
      (if offers.isEmpty then [] else chunk5 offers)
    .ok ⟨jsTrim st.message, rows⟩

/-! ## Body segmentation (`splitIntoQuestions` and the packing loop) -/

/-- `message.split("## ")`, scanning left to right for non-overlapping
occurrences of the separator; `acc` holds the current chunk reversed. -/
def splitSections (acc : JStr) : JStr → List JStr
  | '#' :: '#' :: ' ' :: rest => acc.reverse :: splitSections [] rest
  | c :: rest => splitSections (c :: acc) rest
  | [] => [acc.reverse]

def sectionFrame : JStr := ("### ").data

/-- `splitIntoQuestions(message)`:
`message.split("## ").filter(q => q.trim() !== "").map(q => "### " + q.trim())`. -/
def splitIntoQuestions (message : JStr) : List JStr :=
  ((splitSections [] message).filter (fun q => !(jsTrim q).isEmpty)).map
    (fun q => sectionFrame ++ jsTrim q)

/-- The greedy packing loop of `sendToDiscord` over the question chunks:
a chunk that still fits is appended to `initialMessage` followed by a blank
line, any other chunk is pushed onto `remainingQuestions` — and the scan
continues with the later chunks. -/
def packLoop (maxLen : Nat) (initialMessage : JStr) (remaining : List JStr) :
    List JStr → JStr × List JStr
  | [] => (initialMessage, remaining)
  | q :: qs =>
    if initialMessage.length + q.length ≤ maxLen then
      packLoop maxLen (initialMessage ++ q ++ nl2) remaining qs
    else packLoop maxLen initialMessage (remaining ++ [q]) qs

/-- Specification companion of `packLoop` that keeps the packed chunks as a
list instead of a flat string (same decisions, same order). -/
def packSplit (maxLen : Nat) (initialMessage : JStr) :
    List JStr → List JStr × List JStr
  | [] => ([], [])
  | q :: qs =>
    if initialMessage.length + q.length ≤ maxLen then
      let r := packSplit maxLen (initialMessage ++ q ++ nl2) qs
      (q :: r.1, r.2)
    else
      let r := packSplit maxLen initialMessage qs
      (r.1, q :: r.2)

/-- Flatten packed chunks the way `packLoop` does (`q ++ "\n\n"` each). -/
def joinQ : List JStr → JStr
  | [] => []
  | q :: qs => q ++ nl2 ++ joinQ qs

/-! ## Delivery (`sendToDiscord`) -/

/-- `FORM_FORUM_MAPPING[formId]`: a bare forum id or an
`[forumId, customForumName, responseUrl]` array (array slots may be absent). -/
inductive MappingVal where
  | strVal (s : JStr)
  | arrVal (forumId : Option JStr) (customName : Option JStr) (responseUrl : Option JStr)
deriving DecidableEq

/-- `ChannelType.GuildForum`. -/
def guildForum : Nat := 15

/-- A fetched Discord channel (only the fields the code inspects). -/
structure Forum where
  chanType : Nat
  name : JStr
deriving DecidableEq

/-- Outcomes of every external Discord call made during one delivery
attempt, supplied as an oracle: a `.error` models the call throwing (caught
by the outer `try` of `sendToDiscord`).  `buttonJsonLen` models
`JSON.stringify(createButton(responseUrl)).length`. -/
structure DiscordEnv where
  mapping : Option MappingVal
  fetchForum : Except Unit (Option Forum)
  tagResult : Option JStr
  threadCreate : Except Unit Unit
  followupSend : Except Unit Unit
  adminRole : Option JStr
  adminSend : Except Unit Unit
  buttonJsonLen : Nat

/-- `sendToDiscord(formattedResponse, formId, trackedResponses)` (current
revision): returns the boolean result together with the response track,
which is mutated (and persisted) only on the single success path, after
every fallible step has completed. -/
def sendToDiscord (cfg : BotConfig) (env : DiscordEnv) (resp : FormattedResponse)
    (formId : JStr) (track : Track) : Bool × Track :=
  let dest :=
    match env.mapping with
    | some (.arrVal f n u) => (f, n, u)
    | some (.strVal s) => (some s, none, none)
    | none => (none, none, none)
  let forumId := dest.1
  let responseUrl := dest.2.2
  if !optTruthy forumId then (false, track)
  else if !optTruthy responseUrl then (false, track)
  else
    match env.fetchForum with
    | .error _ => (false, track)
    | .ok none => (false, track)
    | .ok (some forum) =>
      if forum.chanType ≠ guildForum then (false, track)
      else
        match getTotalCost (entriesOf resp) with
        | .error _ => (false, track)
        | .ok totalCost =>
          let _threadName := threadNameFor cfg.projectNameKeys resp totalCost
          match formatResponseMessage cfg (entriesOf resp) responseUrl with
          | .error _ => (false, track)
          | .ok payload =>
            let questions := splitIntoQuestions payload.content
            let maxLength := 2000 - env.buttonJsonLen
            let packed := packLoop maxLength [] [] questions
            match env.threadCreate with
            | .error _ => (false, track)
            | .ok _ =>
              match packed.2, env.followupSend with
              | _ :: _, .error _ => (false, track)
              | _, _ =>
                match env.adminRole, env.adminSend with
                | some _, .error _ => (false, track)
                | _, _ => (true, pushTrack track formId resp)

/-- The boolean outcome of one delivery attempt (it does not depend on the
track, see `sendToDiscord_fst`). -/
def deliverOk (cfg : BotConfig) (env : DiscordEnv) (resp : FormattedResponse)
    (formId : JStr) : Bool :=
  (sendToDiscord cfg env resp formId []).1

/-- The per-record delivery loop of `checkNewResponses`, threading the
response track through consecutive `sendToDiscord` calls; `envOf` supplies
the external-world outcomes for each record's attempt. -/
def deliverAll (cfg : BotConfig) (envOf : FormattedResponse → DiscordEnv)
    (formId : JStr) (track : Track) : List FormattedResponse → Track
  | [] => track
  | r :: rest =>
    deliverAll cfg envOf formId (sendToDiscord cfg (envOf r) r formId track).2 rest

/-! ## Concrete sample data (used by witnesses and counterexamples) -/

/-- A configuration with the default `PROJECT_NAME_KEYS` and permissive
collaborator models. -/
def cfgW : BotConfig :=
  { projectNameKeys := [("name of your project").data]
    urlOk := fun _ => true
    substAddr := fun s => s }

def qidA : JStr := ("q1").data
def qidB : JStr := ("q9").data
def titleA : JStr := ("First question").data

/-- A response answering only a question id that the schema does not know. -/
def respOrphan : RawResponse :=
  { responseId := ("r1").data
    lastSubmittedTime := ("2024-05-01T10:00:00Z").data
    answers := [(qidB, .text (some [("hello").data]))] }

/-- A schema with a single (different) question id. -/
def itemsOne : List FormItem := [{ questionId := some qidA, title := titleA }]

/-- A response whose only answer is of an unrecognised kind. -/
def respUnknownKind : RawResponse :=
  { responseId := ("r2").data
    lastSubmittedTime := ("2024-05-02T10:00:00Z").data
    answers := [(qidA, .other)] }

/-- The body used by the segmentation counterexample: a long first section
followed by a short one. -/
def bodyCex : JStr := ("## aaaaaaaaaaaa\n\n## ab").data

/-- A tracked (already delivered) response with id `r1`. -/
def trackedR1 : FormattedResponse :=
  { responseId := ("r1").data, submitted := ("2024-05-01").data, fields := [] }

/-- Sample question ids for the field-robustness witness. -/
def qidOf (n : Nat) : JStr := ("a").data ++ natToStr n

def mkItem (n : Nat) : FormItem :=
  { questionId := some (qidOf n), title := ("Q").data ++ natToStr n }

def pre6 : List FormItem := [mkItem 1, mkItem 2, mkItem 3, mkItem 4, mkItem 5]

def post6 : List FormItem := [mkItem 6, mkItem 7, mkItem 8, mkItem 9]

def qidM : JStr := ("am").data

def itemMal : FormItem := { questionId := some qidM, title := ("QM").data }

/-- Nine well-formed text answers and one malformed one (missing `.answers`). -/
def ans10 : List (JStr × Answer) :=
  [(qidOf 1, .text (some [("v1").data])), (qidOf 2, .text (some [("v2").data])),
   (qidOf 3, .text (some [("v3").data])), (qidOf 4, .text (some [("v4").data])),
   (qidOf 5, .text (some [("v5").data])), (qidM, .text none),
   (qidOf 6, .text (some [("v6").data])), (qidOf 7, .text (some [("v7").data])),
   (qidOf 8, .text (some [("v8").data])), (qidOf 9, .text (some [("v9").data]))]

/-- A record whose labels hint at an audit context. -/
def entriesAudit : List (JStr × EntryVal) :=
  [(("Auditor name").data, .str (("Acme").data))]

/-- A record with a cost field and no audit hint. -/
def entriesCost : List (JStr × EntryVal) :=
  [(("Project title").data, .str (("X").data)),
   (("Total cost of the project").data, .str (("12345 USD").data))]

/-- Raw responses used by the ordering witness; their `dateVal` model is
`List.length` of the timestamp. -/
def rT1 : RawResponse :=
  { responseId := ("s1").data, lastSubmittedTime := ("1").data, answers := [] }

def rT2 : RawResponse :=
  { responseId := ("s2").data, lastSubmittedTime := ("22").data, answers := [] }

def rT3 : RawResponse :=
  { responseId := ("s3").data, lastSubmittedTime := ("333").data, answers := [] }

/-! ## Helper lemmas -/

theorem dropWhile_head_false {p : Char → Bool} {c : Char} {cs : JStr}
    (h : (c :: cs).dropWhile p = c :: cs) : p c = false := by
  by_cases hp : p c = true
  · rw [List.dropWhile_cons_of_pos hp] at h
    have hlen := congrArg List.length h
    have hle : (cs.dropWhile p).length ≤ cs.length :=
      List.Sublist.length_le (List.dropWhile_sublist p)
    simp at hlen
    omega
  · simpa using hp

theorem dropWhile_idem (p : Char → Bool) : ∀ l : JStr,
    (l.dropWhile p).dropWhile p = l.dropWhile p
  | [] => rfl
  | c :: cs => by
    by_cases h : p c = true
    · simp [List.dropWhile_cons_of_pos h, dropWhile_idem p cs]
    · have h' : ¬ p c = true := h
      simp [List.dropWhile_cons_of_neg h', List.dropWhile_cons, h]

theorem trimRight_append_good {x q : JStr} (hq : q ≠ []) (htr : trimRight q = q) :
    trimRight (x ++ q) = x ++ q := by
  have hrev : q.reverse.dropWhile isWsChar = q.reverse := by
    have := congrArg List.reverse htr
    simpa [trimRight] using this
  obtain ⟨d, ds, hds⟩ : ∃ d ds, q.reverse = d :: ds := by
    cases hq' : q.reverse with
    | nil => exact absurd (by simpa using congrArg List.reverse hq') hq
    | cons d ds => exact ⟨d, ds, rfl⟩
  have hd : isWsChar d = false := dropWhile_head_false (hds ▸ hrev)
  have key : (x ++ q).reverse.dropWhile isWsChar = (x ++ q).reverse := by
    rw [List.reverse_append, hds, List.cons_append]
    exact List.dropWhile_cons_of_neg (by simp [hd])
  show ((x ++ q).reverse.dropWhile isWsChar).reverse = x ++ q
  rw [key, List.reverse_reverse]

theorem trimRight_append_nl2 {y : JStr} (hy : y ≠ []) (htr : trimRight y = y) :
    trimRight (y ++ nl2) = y := by
  have hrev : y.reverse.dropWhile isWsChar = y.reverse := by
    have := congrArg List.reverse htr
    simpa [trimRight] using this
  have hstep : (y ++ nl2).reverse = '\n' :: '\n' :: y.reverse := by
    simp [nl2]
  show ((y ++ nl2).reverse.dropWhile isWsChar).reverse = y
  rw [hstep, List.dropWhile_cons_of_pos (by decide),
    List.dropWhile_cons_of_pos (by decide), hrev, List.reverse_reverse]

theorem trimLeft_append_good {q : JStr} (hq : q ≠ []) (htl : trimLeft q = q)
    (r : JStr) : trimLeft (q ++ r) = q ++ r := by
  obtain ⟨c, cs, hcs⟩ : ∃ c cs, q = c :: cs := by
    cases q with
    | nil => exact absurd rfl hq
    | cons c cs => exact ⟨c, cs, rfl⟩
  subst hcs
  have hc : isWsChar c = false := dropWhile_head_false htl
  show ((c :: cs) ++ r).dropWhile isWsChar = (c :: cs) ++ r
  rw [List.cons_append]
  exact List.dropWhile_cons_of_neg (by simp [hc])

/-! ## Claim C1 -/

/-- C1: the diff of `checkNewResponses` classifies a fetched response as new
iff its `responseId` is absent from the tracked entries for that source —
classification depends on ids only, never on submission dates — and against
a ledger already containing every fetched response's id, any permutation of
the fetched list diffs to zero new responses. -/
theorem c1_diff_by_record_id :
    (∀ (tracked : List FormattedResponse) (rs : List RawResponse) (r : RawResponse),
      r ∈ newResponses tracked rs ↔
        r ∈ rs ∧ ∀ tr ∈ tracked, tr.responseId ≠ r.responseId)
    ∧ (∀ (tracked : List FormattedResponse) (rs rs' : List RawResponse),
        rs.Perm rs' →
        (∀ r ∈ rs, ∃ tr ∈ tracked, tr.responseId = r.responseId) →
        newResponses tracked rs' = []) := by
  constructor
  · intro tracked rs r
    simp [newResponses, List.mem_filter]
  · intro tracked rs rs' hperm hall
    rw [newResponses, List.filter_eq_nil_iff]
    intro r hr
    obtain ⟨tr, htr, hid⟩ := hall r (hperm.mem_iff.mpr hr)
    simp
    exact ⟨tr, htr, hid⟩

/-- Witness for C1: a ledger already holding id `r1` yields an empty diff. -/
theorem c1_witness : newResponses [trackedR1] [respOrphan] = [] :=
  c1_diff_by_record_id.2 [trackedR1] [respOrphan] [respOrphan]
    (List.Perm.refl _) (by decide)

/-! ## Claim C3 -/

/-- C3: deliveries of a tick are attempted in ascending submission-time
order: the attempted order is a sorted permutation of the diffed responses,
and for fetch order `[T3, T1, T2]` with `T1 < T2 < T3` the delivery order is
`[T1, T2, T3]`. -/
theorem c3_delivery_order :
    (∀ (dateVal : JStr → Nat) (tracked : List FormattedResponse)
        (rs : List RawResponse),
      List.Sorted
        (fun a b : RawResponse =>
          dateVal a.lastSubmittedTime ≤ dateVal b.lastSubmittedTime)
        (deliveryOrder dateVal tracked rs)
      ∧ (deliveryOrder dateVal tracked rs).Perm (newResponses tracked rs))
    ∧ (∀ (dateVal : JStr → Nat) (r1 r2 r3 : RawResponse),
        dateVal r1.lastSubmittedTime < dateVal r2.lastSubmittedTime →
        dateVal r2.lastSubmittedTime < dateVal r3.lastSubmittedTime →
        deliveryOrder dateVal [] [r3, r1, r2] = [r1, r2, r3]) := by
  constructor
  · intro dateVal tracked rs
    haveI : IsTotal RawResponse
        (fun a b : RawResponse =>
          dateVal a.lastSubmittedTime ≤ dateVal b.lastSubmittedTime) :=
      ⟨fun a b => Nat.le_total _ _⟩
    haveI : IsTrans RawResponse
        (fun a b : RawResponse =>
          dateVal a.lastSubmittedTime ≤ dateVal b.lastSubmittedTime) :=
      ⟨fun _ _ _ hab hbc => Nat.le_trans hab hbc⟩
    exact ⟨List.sorted_insertionSort _ _, List.perm_insertionSort _ _⟩
  · intro dateVal r1 r2 r3 h1 h2
    have h12 : dateVal r1.lastSubmittedTime ≤ dateVal r2.lastSubmittedTime :=
      Nat.le_of_lt h1
    have h31 : ¬(dateVal r3.lastSubmittedTime ≤ dateVal r1.lastSubmittedTime) :=
      Nat.not_le.mpr (Nat.lt_trans h1 h2)
    have h32 : ¬(dateVal r3.lastSubmittedTime ≤ dateVal r2.lastSubmittedTime) :=
      Nat.not_le.mpr h2
    simp [deliveryOrder, sortNewResponses, newResponses, List.insertionSort,
      List.orderedInsert, h12, h31, h32]

/-- Witness for C3: with the timestamp model `List.length`, fetch order
`[333, 1, 22]` is delivered `[1, 22, 333]`. -/
theorem c3_witness :
    deliveryOrder List.length [] [rT3, rT1, rT2] = [rT1, rT2, rT3] :=
  c3_delivery_order.2 List.length rT1 rT2 rT3 (by decide) (by decide)

/-! ## Claim C4 -/

/-- C4: `loadResponseTrack` never propagates an error (it is a total
function of the collaborator outcomes): a missing file yields an empty
ledger that is immediately persisted, unparseable content yields a warning
and an empty persisted ledger, and any other read error yields an empty
ledger. -/
theorem c4_load_never_throws (parse : JStr → Option Track) :
    loadResponseTrack .enoent parse = ⟨[], some [], false⟩
    ∧ (∀ data : JStr, (jsTrim data).isEmpty = false → parse data = none →
        loadResponseTrack (.ok data) parse = ⟨[], some [], true⟩)
    ∧ loadResponseTrack .failRead parse = ⟨[], none, false⟩ := by
  refine ⟨rfl, ?_, rfl⟩
  intro data h1 h2
  simp [loadResponseTrack, h1, h2]

/-- Witness for C4: concrete missing-file and corrupt-content outcomes. -/
theorem c4_witness :
    loadResponseTrack .enoent (fun _ => none) = ⟨[], some [], false⟩
    ∧ loadResponseTrack (.ok (("not json").data)) (fun _ => none)
        = ⟨[], some [], true⟩ :=
  ⟨(c4_load_never_throws _).1,
   (c4_load_never_throws _).2.1 _ (by decide) rfl⟩

/-! ## Claim C10 -/

/-- C10: the composer excludes the `Submitted` and `responseId` metadata
entries and every falsy-valued field from the whole payload — deleting such
an entry anywhere in the record leaves the composed message and buttons
unchanged. -/
theorem c10_excluded_entries (cfg : BotConfig) (xs ys : List (JStr × EntryVal))
    (k : JStr) (v : EntryVal) (url : Option JStr)
    (h : k = submittedKey ∨ k = responseIdKey ∨ jsTruthy v = false) :
    formatResponseMessage cfg (xs ++ (k, v) :: ys) url
      = formatResponseMessage cfg (xs ++ ys) url := by
  have hpred : ((fun e : JStr × EntryVal =>
      jsTruthy e.2 && e.1 ≠ submittedKey && e.1 ≠ responseIdKey) (k, v)) = false := by
    rcases h with h | h | h <;> simp [h]
  simp only [formatResponseMessage, List.filter_append, List.filter_cons, hpred]
  simp

/-- Witness for C10: dropping a concrete `Submitted` entry leaves the
payload unchanged. -/
theorem c10_witness :
    formatResponseMessage cfgW
        ([] ++ (submittedKey, .str (("2024-05-01").data))
          :: [(("Project website").data, .str (("example.com").data))]) none
      = formatResponseMessage cfgW
        ([] ++ [(("Project website").data, .str (("example.com").data))]) none :=
  c10_excluded_entries cfgW [] _ submittedKey _ none (Or.inl rfl)

/-! ## Claim C2 -/

theorem trackGet_trackSet (f : JStr) (v : List FormattedResponse) :
    ∀ t : Track, trackGet (trackSet t f v) f = v
  | [] => by simp [trackGet, trackSet, List.lookup]
  | (k, w) :: rest => by
    by_cases hk : k = f
    · subst hk
      simp [trackGet, trackSet, List.lookup]
    · have := trackGet_trackSet f v rest
      simp [trackGet, trackSet, hk, List.lookup, beq_false_of_ne (Ne.symm hk)] at this ⊢
      simpa [trackGet] using this

theorem trackGet_pushTrack (t : Track) (f : JStr) (r : FormattedResponse) :
    trackGet (pushTrack t f r) f = trackGet t f ++ [r] :=
  trackGet_trackSet f _ t

/-- The track returned by one `sendToDiscord` call is the input track,
except that the single success exit appends the delivered record. -/
theorem sendToDiscord_snd (cfg : BotConfig) (env : DiscordEnv)
    (resp : FormattedResponse) (formId : JStr) (track : Track) :
    (sendToDiscord cfg env resp formId track).2
      = if (sendToDiscord cfg env resp formId track).1 = true
        then pushTrack track formId resp else track := by
  simp only [sendToDiscord]
  repeat' split
  all_goals first | rfl | simp_all

/-- The boolean outcome of `sendToDiscord` does not depend on the track. -/
theorem sendToDiscord_fst (cfg : BotConfig) (env : DiscordEnv)
    (resp : FormattedResponse) (formId : JStr) (track : Track) :
    (sendToDiscord cfg env resp formId track).1 = deliverOk cfg env resp formId := by
  simp only [deliverOk, sendToDiscord]
  repeat' split
  all_goals first | rfl | simp_all

theorem deliverAll_get (cfg : BotConfig) (envOf : FormattedResponse → DiscordEnv)
    (formId : JStr) :
    ∀ (rs : List FormattedResponse) (track : Track),
      trackGet (deliverAll cfg envOf formId track rs) formId
        = trackGet track formId
            ++ rs.filter (fun r => deliverOk cfg (envOf r) r formId)
  | [], track => by simp [deliverAll]
  | r :: rest, track => by
    rw [deliverAll, deliverAll_get cfg envOf formId rest, sendToDiscord_snd,
      sendToDiscord_fst, List.filter_cons]
    by_cases hok : deliverOk cfg (envOf r) r formId = true
    · simp [hok, trackGet_pushTrack]
    · simp [hok]

/-- C2: a record is appended to the (persisted) ledger by `sendToDiscord`
only on the single success exit, after every delivery step has completed;
each enumerated failure (missing forum mapping, bare mapping without a
response URL, fetch returning a non-forum channel, thread-creation error)
returns `false` with the ledger untouched; and the ledger after a delivery
pass holds exactly the previously tracked records plus those records whose
delivery succeeded. -/
theorem c2_mark_only_after_delivery :
    (∀ (cfg : BotConfig) (env : DiscordEnv) (resp : FormattedResponse)
        (formId : JStr) (track : Track),
      (sendToDiscord cfg env resp formId track).2
        = if (sendToDiscord cfg env resp formId track).1 = true
          then pushTrack track formId resp else track)
    ∧ (∀ cfg env resp formId track, env.mapping = none →
        sendToDiscord cfg env resp formId track = (false, track))
    ∧ (∀ cfg env resp formId track s, env.mapping = some (.strVal s) →
        sendToDiscord cfg env resp formId track = (false, track))
    ∧ (∀ cfg env resp formId track forum, env.fetchForum = .ok (some forum) →
        forum.chanType ≠ guildForum →
        sendToDiscord cfg env resp formId track = (false, track))
    ∧ (∀ cfg env resp formId track, env.threadCreate = .error () →
        sendToDiscord cfg env resp formId track = (false, track))
    ∧ (∀ (cfg : BotConfig) (envOf : FormattedResponse → DiscordEnv)
        (formId : JStr) (track : Track) (rs : List FormattedResponse),
      trackGet (deliverAll cfg envOf formId track rs) formId
        = trackGet track formId
            ++ rs.filter (fun r => deliverOk cfg (envOf r) r formId)) := by
  refine ⟨sendToDiscord_snd, ?_, ?_, ?_, ?_,
    fun cfg envOf formId track rs => deliverAll_get cfg envOf formId rs track⟩
  · intro cfg env resp formId track h
    simp [sendToDiscord, h, optTruthy]
  · intro cfg env resp formId track s h
    simp [sendToDiscord, h, optTruthy]
  · intro cfg env resp formId track forum h1 h2
    simp only [sendToDiscord, h1]
    repeat' split
    all_goals first | rfl | simp_all
  · intro cfg env resp formId track h
    simp only [sendToDiscord, h]
    repeat' split
    all_goals first | rfl | simp_all

/-- Witness for C2: a missing forum mapping fails without touching the
ledger. -/
theorem c2_witness :
    sendToDiscord cfgW
        { mapping := none, fetchForum := .ok none, tagResult := none,
          threadCreate := .ok (), followupSend := .ok (), adminRole := none,
          adminSend := .ok (), buttonJsonLen := 100 }
        trackedR1 (("f1").data) [] = (false, []) :=
  c2_mark_only_after_delivery.2.1 cfgW _ trackedR1 (("f1").data) [] rfl

/-! ## Claim C5 -/

theorem buildFields_eq (answers : List (JStr × Answer)) :
    ∀ items : List FormItem,
      buildFields answers items = items.filterMap (schemaField answers)
  | [] => rfl
  | item :: rest => by
    have ih := buildFields_eq answers rest
    cases hq : item.questionId with
    | none => simp [buildFields, schemaField, hq, ih]
    | some qv =>
      cases ha : answers.lookup qv with
      | none => simp [buildFields, schemaField, hq, ha, ih]
      | some a =>
        cases hr : renderAnswer a with
        | none => simp [buildFields, schemaField, hq, ha, hr, ih]
        | some x =>
          cases x with
          | ok v => simp [buildFields, schemaField, hq, ha, hr, ih]
          | error e => simp [buildFields, schemaField, hq, ha, hr, ih]

theorem buildFields_append (answers : List (JStr × Answer))
    (l₁ l₂ : List FormItem) :
    buildFields answers (l₁ ++ l₂)
      = buildFields answers l₁ ++ buildFields answers l₂ := by
  simp [buildFields_eq]

/-- C5 (amended): normalization resolves every field label from the schema
item's title, output field order follows the schema's item order, and an
answer whose question id has no schema entry yields no field at all (it is
dropped, not given a synthesized label). -/
theorem c5_schema_driven_fields (resp : RawResponse) (items : List FormItem) :
    (formatResponse resp items).fields = items.filterMap (schemaField resp.answers)
    ∧ ∀ p ∈ (formatResponse resp items).fields, ∃ it ∈ items, p.1 = it.title := by
  refine ⟨buildFields_eq resp.answers items, ?_⟩
  intro p hp
  rw [show (formatResponse resp items).fields = buildFields resp.answers items from rfl,
    buildFields_eq] at hp
  obtain ⟨it, hit, hf⟩ := List.mem_filterMap.mp hp
  refine ⟨it, hit, ?_⟩
  rcases it with ⟨oq, title⟩
  cases oq with
  | none => simp [schemaField] at hf
  | some q =>
    simp only [schemaField] at hf
    cases ha : resp.answers.lookup q with
    | none => simp [ha] at hf
    | some a =>
      cases hr : renderAnswer a with
      | none => simp [ha, hr] at hf
      | some x =>
        cases x with
        | ok v =>
          simp [ha, hr] at hf
          simp [← hf]
        | error e =>
          simp [ha, hr] at hf
          simp [← hf]

/-- Counterexample for C5 as stated: an answered question id absent from the
schema is dropped entirely — no field with a synthesized label survives. -/
theorem c5_counterexample :
    (formatResponse respOrphan itemsOne).fields = [] ∧ respOrphan.answers ≠ [] := by
  decide

/-! ## Claim C6 -/

theorem renderAnswer_of_malformed {a : Answer} (h : malformedAnswer a = true) :
    renderAnswer a = some (.error ()) := by
  cases a with
  | fileUpload o => cases o <;> simp_all [malformedAnswer, renderAnswer]
  | text o => cases o <;> simp_all [malformedAnswer, renderAnswer]
  | scale o => cases o <;> simp_all [malformedAnswer, renderAnswer]
  | date o => cases o <;> simp_all [malformedAnswer, renderAnswer]
  | time o => cases o <;> simp_all [malformedAnswer, renderAnswer]
  | choice o => cases o <;> simp_all [malformedAnswer, renderAnswer]
  | other => simp [malformedAnswer] at h

/-- C6 (amended): a malformed answer is caught per-field and replaced by the
`Error processing answer` marker while every other field is unaffected (so
nine well-formed answers plus one malformed one normalize to ten fields),
whereas an answer of an unrecognised kind contributes no field at all —
there is no `unsupported answer type` marker in the current revision. -/
theorem c6_per_field_error_containment (answers : List (JStr × Answer))
    (pre post : List FormItem) (it : FormItem) (qv : JStr) (a : Answer)
    (hq : it.questionId = some qv) (ha : answers.lookup qv = some a) :
    (malformedAnswer a = true →
      buildFields answers (pre ++ it :: post)
        = buildFields answers pre
            ++ (it.title, .str errMarker) :: buildFields answers post)
    ∧ (a = .other →
      buildFields answers (pre ++ it :: post)
        = buildFields answers pre ++ buildFields answers post) := by
  constructor
  · intro h
    rw [buildFields_append]
    simp [buildFields, hq, ha, renderAnswer_of_malformed h]
  · intro h
    subst h
    rw [buildFields_append]
    simp [buildFields, hq, ha, renderAnswer]

/-- Counterexample for C6 as stated: an unrecognised answer kind yields no
field (and in particular no "unsupported answer type" marker string). -/
theorem c6_counterexample :
    (formatResponse respUnknownKind itemsOne).fields = []
    ∧ respUnknownKind.answers ≠ [] := by
  decide

/-- Witness for C6: nine well-formed answers and one malformed one produce
exactly ten fields, the malformed one carrying the error marker. -/
theorem c6_witness :
    (buildFields ans10 (pre6 ++ itemMal :: post6)).length = 10
    ∧ buildFields ans10 (pre6 ++ itemMal :: post6)
        = buildFields ans10 pre6
            ++ (itemMal.title, .str errMarker) :: buildFields ans10 post6 :=
  ⟨by decide,
   (c6_per_field_error_containment ans10 pre6 post6 itemMal qidM (.text none)
     rfl (by decide)).1 rfl⟩

/-! ## Claim C8 -/

/-- The `while` loop of `truncateCost` computes the greatest separator
boundary at or before `n`, or 0 when there is none. -/
theorem breakIndexLoop_spec (t : JStr) : ∀ n : Nat,
    (breakIndexLoop t n = 0
      ∧ ∀ j, 1 ≤ j → j ≤ n → isSepChar (t.getD (j - 1) 'x') = false)
    ∨ (1 ≤ breakIndexLoop t n ∧ breakIndexLoop t n ≤ n
        ∧ isSepChar (t.getD (breakIndexLoop t n - 1) 'x') = true
        ∧ ∀ j, breakIndexLoop t n < j → j ≤ n →
            isSepChar (t.getD (j - 1) 'x') = false)
  | 0 => Or.inl ⟨rfl, by omega⟩
  | n + 1 => by
    by_cases h : isSepChar (t.getD n 'x') = true
    · right
      simp only [breakIndexLoop, if_pos h]
      refine ⟨by omega, by omega, by simpa using h, ?_⟩
      intro j h1 h2
      omega
    · have h' : isSepChar (t.getD n 'x') = false := by simpa using h
      simp only [breakIndexLoop, if_neg h]
      rcases breakIndexLoop_spec t n with ⟨h0, hall⟩ | ⟨h1, h2, h3, h4⟩
      · left
        refine ⟨h0, ?_⟩
        intro j hj1 hj2
        rcases Nat.lt_or_ge j (n + 1) with hlt | hge
        · exact hall j hj1 (by omega)
        · have : j = n + 1 := by omega
          subst this
          simpa using h'
      · right
        refine ⟨h1, by omega, h3, ?_⟩
        intro j hj1 hj2
        rcases Nat.lt_or_ge j (n + 1) with hlt | hge
        · exact h4 j hj1 (by omega)
        · have : j = n + 1 := by omega
          subst this
          simpa using h'

/-- C8: cost resolution — an audit-hinting label suppresses the cost
entirely (empty string); otherwise the first cost-hint-matching field's
value is returned through `truncateCost`, where a trimmed value of at most
20 characters passes unchanged and a longer one is cut at the last
whitespace/comma/period boundary at or before position 20 (hard cut at 20
when no boundary exists), with the ellipsis marker appended. -/
theorem c8_cost_resolution :
    (∀ entries, isAuditForm entries = true → getTotalCost entries = .ok [])
    ∧ (∀ entries (k : JStr) (v : JStr), isAuditForm entries = false →
        findCostEntry entries = some (k, .str v) →
        getTotalCost entries = .ok (truncateCost v))
    ∧ (∀ (pre post : List (JStr × EntryVal)) (e : JStr × EntryVal),
        (∀ e' ∈ pre, keyMatchesCost e'.1 = false) → keyMatchesCost e.1 = true →
        findCostEntry (pre ++ e :: post) = some e)
    ∧ (∀ v : JStr, (jsTrim v).length ≤ 20 → truncateCost v = jsTrim v)
    ∧ (∀ v : JStr, 20 < (jsTrim v).length →
        (∃ i, 1 ≤ i ∧ i ≤ 20 ∧ isSepChar ((jsTrim v).getD (i - 1) 'x') = true
          ∧ (∀ j, i < j → j ≤ 20 → isSepChar ((jsTrim v).getD (j - 1) 'x') = false)
          ∧ truncateCost v = (jsTrim v).take i ++ dots3)
        ∨ ((∀ j, 1 ≤ j → j ≤ 20 → isSepChar ((jsTrim v).getD (j - 1) 'x') = false)
          ∧ truncateCost v = (jsTrim v).take 20 ++ dots3)) := by
  refine ⟨?_, ?_, ?_, ?_, ?_⟩
  · intro entries h
    simp [getTotalCost, h]
  · intro entries k v h1 h2
    simp [getTotalCost, h1, findCostEntry] at h2 ⊢
    simp [h2]
  · intro pre post e hpre he
    have hnone : pre.find? (fun e' => keyMatchesCost e'.1) = none :=
      List.find?_eq_none.mpr (fun x hx => by simp [hpre x hx])
    simp [findCostEntry, List.find?_append, hnone, List.find?_cons, he]
  · intro v h
    have h' : ¬(20 < (jsTrim v).length) := by omega
    simp [truncateCost, h']
  · intro v h
    rcases breakIndexLoop_spec (jsTrim v) 20 with ⟨h0, hall⟩ | ⟨h1, h2, h3, h4⟩
    · right
      refine ⟨hall, ?_⟩
      simp [truncateCost, h, h0]
    · left
      refine ⟨breakIndexLoop (jsTrim v) 20, h1, h2, h3, h4, ?_⟩
      have hne : ¬(breakIndexLoop (jsTrim v) 20 = 0) := by omega
      simp [truncateCost, h, hne]

/-- Witness for C8: a concrete audit record is suppressed, and a concrete
cost record resolves through `truncateCost`. -/
theorem c8_witness :
    getTotalCost entriesAudit = .ok []
    ∧ getTotalCost entriesCost = .ok (truncateCost (("12345 USD").data)) :=
  ⟨c8_cost_resolution.1 entriesAudit (by decide),
   c8_cost_resolution.2.1 entriesCost (("Total cost of the project").data)
     (("12345 USD").data) (by decide) (by decide)⟩

/-! ## Claim C9 -/

/-- C9: when no field label matches a cost hint and none hints at an audit
context, `getTotalCost` returns the literal `Cost not found`, and — being
truthy — that string is embedded into the thread title as
`{date} - {project} - Cost not found` rather than the suffix being
omitted. -/
theorem c9_cost_not_found_title (keys : List JStr) (r : FormattedResponse)
    (h1 : isAuditForm (entriesOf r) = false)
    (h2 : findCostEntry (entriesOf r) = none) :
    getTotalCost (entriesOf r) = .ok costNotFound
    ∧ threadNameFor keys r costNotFound
        = truncateStr
            (r.submitted ++ sepDash
              ++ valToStr (getProjectName keys (entriesOf r))
              ++ sepDash ++ costNotFound) 100 := by
  refine ⟨by simp [getTotalCost, h1, h2], ?_⟩
  have hne : costNotFound.isEmpty = false := by decide
  simp [threadNameFor, hne]

/-- Witness for C9: a record with no cost and no audit labels gets the
`Cost not found` suffix in its title. -/
theorem c9_witness :
    getTotalCost (entriesOf trackedR1) = .ok costNotFound
    ∧ threadNameFor cfgW.projectNameKeys trackedR1 costNotFound
        = truncateStr
            (trackedR1.submitted ++ sepDash
              ++ valToStr (getProjectName cfgW.projectNameKeys (entriesOf trackedR1))
              ++ sepDash ++ costNotFound) 100 :=
  c9_cost_not_found_title cfgW.projectNameKeys trackedR1 (by decide) (by decide)

/-! ## Claim C7 -/

theorem packLoop_eq_packSplit (maxLen : Nat) :
    ∀ (qs : List JStr) (init : JStr) (rem : List JStr),
      packLoop maxLen init rem qs
        = (init ++ joinQ (packSplit maxLen init qs).1,
           rem ++ (packSplit maxLen init qs).2)
  | [], init, rem => by simp [packLoop, packSplit, joinQ]
  | q :: qs, init, rem => by
    by_cases h : init.length + q.length ≤ maxLen
    · simp only [packLoop, packSplit, if_pos h]
      rw [packLoop_eq_packSplit maxLen qs (init ++ q ++ nl2) rem]
      simp [joinQ, List.append_assoc]
    · simp only [packLoop, packSplit, if_neg h]
      rw [packLoop_eq_packSplit maxLen qs init (rem ++ [q])]
      simp [List.append_assoc]

theorem packSplit_fst_sublist (maxLen : Nat) :
    ∀ (qs : List JStr) (init : JStr),
      ((packSplit maxLen init qs).1).Sublist qs
  | [], _ => by simp [packSplit]
  | q :: qs, init => by
    by_cases h : init.length + q.length ≤ maxLen
    · simp only [packSplit, if_pos h]
      exact List.Sublist.cons₂ q (packSplit_fst_sublist maxLen qs _)
    · simp only [packSplit, if_neg h]
      exact List.Sublist.cons q (packSplit_fst_sublist maxLen qs _)

theorem packSplit_snd_sublist (maxLen : Nat) :
    ∀ (qs : List JStr) (init : JStr),
      ((packSplit maxLen init qs).2).Sublist qs
  | [], _ => by simp [packSplit]
  | q :: qs, init => by
    by_cases h : init.length + q.length ≤ maxLen
    · simp only [packSplit, if_pos h]
      exact List.Sublist.cons q (packSplit_snd_sublist maxLen qs _)
    · simp only [packSplit, if_neg h]
      exact List.Sublist.cons₂ q (packSplit_snd_sublist maxLen qs _)

theorem packSplit_count (maxLen : Nat) :
    ∀ (qs : List JStr) (init : JStr) (q0 : JStr),
      ((packSplit maxLen init qs).1).count q0
          + ((packSplit maxLen init qs).2).count q0
        = qs.count q0
  | [], _, q0 => by simp [packSplit]
  | q :: qs, init, q0 => by
    by_cases h : init.length + q.length ≤ maxLen
    · have ih := packSplit_count maxLen qs (init ++ q ++ nl2) q0
      simp only [packSplit, if_pos h, List.count_cons]
      omega
    · have ih := packSplit_count maxLen qs init q0
      simp only [packSplit, if_neg h, List.count_cons]
      omega

theorem trimRight_idem (y : JStr) : trimRight (trimRight y) = trimRight y := by
  simp only [trimRight, List.reverse_reverse, dropWhile_idem]

theorem splitIntoQuestions_good (m : JStr) :
    ∀ q ∈ splitIntoQuestions m, q ≠ [] ∧ trimLeft q = q ∧ trimRight q = q := by
  intro q hq
  simp only [splitIntoQuestions, List.mem_map, List.mem_filter] at hq
  obtain ⟨c, ⟨hc, hne⟩, rfl⟩ := hq
  have hte : jsTrim c ≠ [] := by simpa using hne
  refine ⟨by simp [sectionFrame], ?_, ?_⟩
  · exact trimLeft_append_good (q := sectionFrame) (by decide) (by decide) _
  · exact trimRight_append_good hte (trimRight_idem (trimLeft c))

theorem packSplit_budget (maxLen : Nat) :
    ∀ (qs : List JStr) (init : JStr),
      (∀ q ∈ qs, q ≠ [] ∧ trimLeft q = q ∧ trimRight q = q) →
      (init = [] ∨ (init ≠ [] ∧ trimLeft init = init ∧ (jsTrim init).length ≤ maxLen)) →
      (jsTrim (init ++ joinQ (packSplit maxLen init qs).1)).length ≤ maxLen
  | [], init, _, hinit => by
    simp only [packSplit, joinQ, List.append_nil]
    rcases hinit with h | ⟨_, _, h⟩
    · subst h
      simp [jsTrim, trimLeft, trimRight]
    · exact h
  | q :: qs, init, hqs, hinit => by
    obtain ⟨hqne, hql, hqr⟩ := hqs q (by simp)
    have hqs' : ∀ x ∈ qs, x ≠ [] ∧ trimLeft x = x ∧ trimRight x = x :=
      fun x hx => hqs x (by simp [hx])
    by_cases h : init.length + q.length ≤ maxLen
    · simp only [packSplit, if_pos h, joinQ]
      have hassoc :
          init ++ (q ++ nl2 ++ joinQ (packSplit maxLen (init ++ q ++ nl2) qs).1)
            = (init ++ q ++ nl2) ++ joinQ (packSplit maxLen (init ++ q ++ nl2) qs).1 := by
        simp [List.append_assoc]
      rw [hassoc]
      have hleft : trimLeft (init ++ q ++ nl2) = init ++ q ++ nl2 := by
        rcases hinit with hi | ⟨hine, hil, _⟩
        · subst hi
          simpa using trimLeft_append_good hqne hql nl2
        · have := trimLeft_append_good hine hil (q ++ nl2)
          simpa [List.append_assoc] using this
      apply packSplit_budget maxLen qs (init ++ q ++ nl2) hqs'
      right
      refine ⟨by simp [nl2], hleft, ?_⟩
      have h1 : trimRight (init ++ q) = init ++ q := trimRight_append_good hqne hqr
      have h2 : trimRight ((init ++ q) ++ nl2) = init ++ q :=
        trimRight_append_nl2 (by simp [hqne]) h1
      have h3 : jsTrim (init ++ q ++ nl2) = init ++ q := by
        rw [jsTrim, hleft]
        simpa [List.append_assoc] using h2
      rw [h3]
      simp only [List.length_append]
      omega
    · simp only [packSplit, if_neg h]
      exact packSplit_budget maxLen qs init hqs' hinit

/-- C7 (amended): the greedy packing of the split body is loss-free — the
initial message is exactly the packed chunks joined with blank lines, the
packed chunks and the overflow chunks are each subsequences of the original
sections (so each part keeps its original relative order), every section
lands in exactly one of the two with multiplicity preserved, and the
trimmed initial message never exceeds the size budget.  The concatenation
initial-then-overflow need not reproduce the original global order (see the
counterexample): a later, shorter section can still be packed after an
earlier longer one has overflowed. -/
theorem c7_segmentation_roundtrip (m : JStr) (maxLen : Nat) :
    packLoop maxLen [] [] (splitIntoQuestions m)
      = (joinQ (packSplit maxLen [] (splitIntoQuestions m)).1,
         (packSplit maxLen [] (splitIntoQuestions m)).2)
    ∧ ((packSplit maxLen [] (splitIntoQuestions m)).1).Sublist (splitIntoQuestions m)
    ∧ ((packSplit maxLen [] (splitIntoQuestions m)).2).Sublist (splitIntoQuestions m)
    ∧ (∀ q0 : JStr,
        ((packSplit maxLen [] (splitIntoQuestions m)).1).count q0
          + ((packSplit maxLen [] (splitIntoQuestions m)).2).count q0
          = (splitIntoQuestions m).count q0)
    ∧ (jsTrim (joinQ (packSplit maxLen [] (splitIntoQuestions m)).1)).length ≤ maxLen := by
  refine ⟨by simpa using packLoop_eq_packSplit maxLen (splitIntoQuestions m) [] [],
    packSplit_fst_sublist maxLen _ _, packSplit_snd_sublist maxLen _ _,
    fun q0 => packSplit_count maxLen _ _ q0, ?_⟩
  simpa using
    packSplit_budget maxLen (splitIntoQuestions m) []
      (splitIntoQuestions_good m) (Or.inl rfl)

/-- Counterexample for C7 as stated: for a body whose first section exceeds
the budget while the second fits, concatenating the initial message's
sections with the overflow segments yields the sections out of their
original order. -/
theorem c7_counterexample :
    (packSplit 10 [] (splitIntoQuestions bodyCex)).1
        ++ (packLoop 10 [] [] (splitIntoQuestions bodyCex)).2
      ≠ splitIntoQuestions bodyCex := by
  decide

end GFBot
